import Mathlib

/-!
Shallow embedding of the metrics aggregation pipeline of `src/app.py`
(a customer-support ticket statistics dashboard).

Modelling conventions:
* a raw cell is `Option String` (`none` = NaN produced by the table reader);
* numeric values are `ℚ`; a missing numeric value is `none : Option ℚ`
  (floats carrying NaN are modelled by `Option`);
* `pandas` behaviours used by the script (`pct_change`, `quantile`,
  `median`, `groupby`, outer `merge`, `sort_values`) are embedded as
  explicit list functions below, each annotated with the line of
  `src/app.py` it reflects.
-/

namespace KF

/-! ### Field normalisation (`clean_numeric_column`, src/app.py lines 67-74) -/

/-- The character class of the sentinel regex on line 70 of app.py:
the literal hyphen-minus, the range U+2010..U+2012, and the individual
characters U+2013, U+2014, U+2015 and U+2212 (minus sign). -/
def isDashChar (c : Char) : Bool :=
  c == '-' || (0x2010 ≤ c.toNat && c.toNat ≤ 0x2015) || c.toNat == 0x2212

/-- Line 69-72 of app.py: the regex replacements applied to the stripped
string.  `^[-‐-‒–—―−]+$` (all dash variants), `^(null|None|nan|NaN)$`
(case sensitive, exactly these four spellings) and `^\s*$` map the cell
to NaN (`none`). -/
def isSentinel (s : String) : Bool :=
  (s.length != 0 && s.data.all isDashChar)
    || s == "null" || s == "None" || s == "nan" || s == "NaN"
    || s.data.all (fun c => c.isWhitespace)

/-- Line 73: `s.str.replace(",", "", regex=False)` — drop every comma. -/
def stripCommas (s : String) : String := ⟨s.data.filter (fun c => c ≠ ',')⟩

/-- Drop leading whitespace characters. -/
def dropWsL : List Char → List Char
  | [] => []
  | c :: cs => if c.isWhitespace then dropWsL cs else c :: cs

/-- Python's `str.strip()` (line 68): remove leading and trailing
whitespace. -/
def stripEnds (s : String) : String :=
  ⟨(dropWsL ((dropWsL s.data.reverse)).reverse)⟩

/-- Scan a decimal digit run: returns (value, number of digits, rest). -/
def scanDigits : List Char → Nat → Nat → Nat × Nat × List Char
  | [], acc, cnt => (acc, cnt, [])
  | c :: cs, acc, cnt =>
    if c.isDigit then scanDigits cs (acc * 10 + (c.toNat - 48)) (cnt + 1)
    else (acc, cnt, c :: cs)

/-- Negate when the parsed sign was a minus. -/
def applySign (neg : Bool) (q : ℚ) : ℚ := if neg then -q else q

/-- The numeric grammar accepted by `pd.to_numeric` on the cleaned cell
(line 74): optional sign, decimal digits, optional fractional part; any
other string yields NaN under `errors="coerce"`. -/
def parseNum (s : String) : Option ℚ :=
  let p : Bool × List Char :=
    match s.data with
    | '-' :: rest => (true, rest)
    | '+' :: rest => (false, rest)
    | cs => (false, cs)
  let (ip, ic, rest) := scanDigits p.2 0 0
  match rest with
  | [] => if ic = 0 then none else some (applySign p.1 (ip : ℚ))
  | '.' :: rest1 =>
    let (fp, fc, rest2) := scanDigits rest1 0 0
    if rest2 = [] ∧ 0 < ic + fc then
      some (applySign p.1 ((ip : ℚ) + (fp : ℚ) / (10 : ℚ) ^ fc))
    else none
  | _ => none

/-- `clean_numeric_column` applied to one cell (src/app.py lines 67-74):
strip outer whitespace, map sentinel strings to NaN, drop commas, then
coerce to a number (unparsable strings coerce to NaN, never an error). -/
def cleanNumeric (s : String) : Option ℚ :=
  let t := stripEnds s
  if isSentinel t then none else parseNum (stripCommas t)

/-- A raw cell that is already NaN renders as the string "nan" under
`astype(str)` on line 68 before cleaning. -/
def cleanCell (c : Option String) : Option ℚ :=
  cleanNumeric (match c with | none => "nan" | some s => s)

/-! ### Time bucketing (src/app.py lines 64-65) -/

/-- Two-digit month rendering inside the period string. -/
def pad2 (n : Nat) : String := if n < 10 then "0" ++ toString n else toString n

/-- Lines 64-65: `pd.to_datetime(..., errors="coerce")` yields NaT for an
unparsable timestamp; `.dt.to_period("M").astype(str)` then renders a
parsed date as "YYYY-MM" and renders NaT as the literal string "NaT".
The parsed timestamp is modelled as an `Option (Nat × Nat)` (year, month). -/
def monthStr (created : Option (Nat × Nat)) : String :=
  match created with
  | none => "NaT"
  | some (y, m) => toString y ++ "-" ++ pad2 m

/-! ### Record rows after normalisation -/

/-- One row of the merged record set after field normalisation: the
columns the aggregation stage reads.  `created` is the parsed
`ticket_created_datetime` (none = NaT); `msgCount`, `respDur`,
`handleDur` are the cleaned numeric columns `message_count`,
`首次响应时长`, `处理时长`; `status` is carried verbatim and — as in the
source — never read by any statistic. -/
structure NRow where
  ticket_id : String
  rn : Option ℚ
  status : Option String
  channel : Option String
  line : Option String
  created : Option (Nat × Nat)
  msgCount : Option ℚ
  respDur : Option ℚ
  handleDur : Option ℚ
deriving DecidableEq, Repr

/-- The `month` column of a row (line 65). -/
def rowMonth (r : NRow) : String := monthStr r.created

/-! ### Pandas statistics kernels -/

/-- Boolean order on ℚ used for sorting samples. -/
def qLe (a b : ℚ) : Bool := decide (a ≤ b)

/-- Boolean lexical order on month strings. -/
def strLe (a b : String) : Bool := decide (a ≤ b)

/-- Insert into a sorted list (the sorting kernel used to model pandas
ascending sorts). -/
def insertLe {α : Type} (le : α → α → Bool) (x : α) : List α → List α
  | [] => [x]
  | y :: ys => if le x y then x :: y :: ys else y :: insertLe le x ys

/-- Ascending sort by a boolean order (extensionally the sort pandas
performs: same elements, ordered by `le`). -/
def sortLe {α : Type} (le : α → α → Bool) : List α → List α
  | [] => []
  | x :: xs => insertLe le x (sortLe le xs)

/-- Distinct elements of a key list (each key once). -/
def dedupKeys {K : Type} [DecidableEq K] : List K → List K
  | [] => []
  | x :: xs => if x ∈ xs then dedupKeys xs else x :: dedupKeys xs

/-- Zero-based indexing with a default. -/
def nthD : List ℚ → Nat → ℚ
  | [], _ => 0
  | x :: _, 0 => x
  | _ :: xs, n + 1 => nthD xs n

/-- `Series.median()`: sort the non-NaN samples, take the middle element
(odd count) or the mean of the two middle elements (even count); the
empty sample set yields NaN. -/
def medianList (xs : List ℚ) : Option ℚ :=
  let ys := sortLe qLe xs
  let n := ys.length
  if n = 0 then none
  else if n % 2 = 1 then some (nthD ys (n / 2))
  else some ((nthD ys (n / 2 - 1) + nthD ys (n / 2)) / 2)

/-- `Series.quantile(p)` with the default linear interpolation: sort the
non-NaN samples, let h = p·(n−1), and interpolate between the bracketing
order statistics; the empty sample set yields NaN. -/
def quantileLinear (p : ℚ) (xs : List ℚ) : Option ℚ :=
  let ys := sortLe qLe xs
  match ys.length with
  | 0 => none
  | Nat.succ m =>
    let h : ℚ := p * (m : ℚ)
    let i : Nat := (Rat.floor h).toNat
    some (nthD ys i + (h - (i : ℚ)) * (nthD ys (min (i + 1) m) - nthD ys i))

/-! ### Aggregator (src/app.py lines 132-143, 183-194, …) -/

/-- `df.groupby(keys, as_index=False).agg(median, quantile(0.9))` for one
metric column: group keys are the distinct key values sorted ascending
(pandas `groupby` sorts group keys), and each group aggregates the
metric's non-missing samples of the rows carrying that key. -/
def groupStatsBy {K : Type} [DecidableEq K] (kle : K → K → Bool)
    (key : NRow → K) (rows : List NRow) (metric : NRow → Option ℚ) :
    List (K × Option ℚ × Option ℚ) :=
  (sortLe kle (dedupKeys (rows.map key))).map (fun k =>
    let vals := (rows.filter (fun r => key r = k)).filterMap metric
    (k, medianList vals, quantileLinear (9 / 10) vals))

/-- The overall (per month) aggregation of lines 132-143. -/
def groupStats (rows : List NRow) (metric : NRow → Option ℚ) :
    List (String × Option ℚ × Option ℚ) :=
  groupStatsBy strLe rowMonth rows metric

/-! ### Period-over-period change (`add_mom`, src/app.py lines 114-127) -/

/-- The value of one `pct_change` cell.  IEEE division makes
`(c − 0)/0` a signed infinity for `c ≠ 0` and NaN for `c = 0`; a NaN
operand propagates to NaN. -/
inductive PctVal where
  | fin (q : ℚ)
  | posInf
  | negInf
  | nan
deriving DecidableEq, Repr

/-- One step of `Series.pct_change()` (no forward filling): the change of
`cur` against the immediately preceding value `prev`. -/
def pctStep (prev cur : Option ℚ) : PctVal :=
  match prev, cur with
  | some p, some c =>
    if p ≠ 0 then .fin ((c - p) / p)
    else if 0 < c then .posInf
    else if c < 0 then .negInf
    else .nan
  | _, _ => .nan

/-- `Series.pct_change()` over a whole column (line 125): position 0 is
NaN (the shifted series starts with NaN), and position i+1 compares the
values at positions i+1 and i. -/
def pctChangeList (xs : List (Option ℚ)) : List PctVal :=
  (List.range xs.length).map (fun i =>
    if i = 0 then .nan else pctStep (xs.getD (i - 1) none) (xs.getD i none))

/-- `groupby(group_cols)[m].pct_change()` (line 120): each row's change
compares its value with the value of the latest earlier row carrying the
same group key; a row with no earlier row in its group gets NaN. -/
def groupedPct (rows : List (String × Option ℚ)) : List PctVal :=
  (List.range rows.length).map (fun i =>
    let gc := rows.getD i ("", none)
    match List.lookup gc.1 ((rows.take i).reverse) with
    | none => PctVal.nan
    | some p => pctStep p gc.2)

/-- Round to an integer, ties to even (the rounding of Python's
fixed-point float formatting). -/
def rhe (x : ℚ) : ℤ :=
  let f := Rat.floor x
  if x - (f : ℚ) < 1 / 2 then f
  else if (1 : ℚ) / 2 < x - (f : ℚ) then f + 1
  else if f % 2 = 0 then f else f + 1

/-- Digits of a one-decimal fixed-point rendering of m tenths. -/
def tenthsStr (m : Nat) : String := toString (m / 10) ++ "." ++ toString (m % 10)

/-- Python's `f"{q:.1f}"` on a (finite) value. -/
def fmtFixed1 (q : ℚ) : String :=
  let n := rhe (q * 10)
  if n < 0 then "-" ++ tenthsStr n.natAbs else tenthsStr n.toNat

/-- Line 120/125: `f"{x*100:.1f}%" if pd.notnull(x) else "-"`.
`pd.notnull` is true on the infinities, so a zero previous value renders
as "inf%" / "-inf%"; only NaN renders as the "-" placeholder. -/
def fmtPct : PctVal → String
  | .fin q => fmtFixed1 (q * 100) ++ "%"
  | .posInf => "inf%"
  | .negInf => "-inf%"
  | .nan => "-"

/-- The rendered change column `add_mom` appends for one ungrouped
statistic column (lines 123-126). -/
def momColumn (xs : List (Option ℚ)) : List String :=
  (pctChangeList xs).map fmtPct

/-- The rendered change column `add_mom` appends for one grouped
statistic column (lines 117-121). -/
def momColumnGrouped (rows : List (String × Option ℚ)) : List String :=
  (groupedPct rows).map fmtPct

/-! ### Analysis subsets (src/app.py lines 110-111) -/

/-- Errors that abort the run. -/
inductive StopReason where
  | noChannels
  | noLines
  | undefinedVariable
deriving DecidableEq, Repr

/-- `df.query("rn == 1")` (lines 110-111): pandas resolves the name `rn`
among the columns — if no such column exists the query raises
`UndefinedVariableError`; otherwise it keeps the rows whose `rn` value
equals 1 (a NaN `rn` compares unequal). -/
def queryRnEq1 (cols : List String) (rows : List NRow) :
    Except StopReason (List NRow) :=
  if "rn" ∈ cols then .ok (rows.filter (fun r => r.rn = some 1))
  else .error .undefinedVariable

/-- The subset both `df_reply` and `df_close` are bound to when the `rn`
column exists: the rows with `rn == 1`.  No status field is consulted. -/
def dedupView (rows : List NRow) : List NRow :=
  rows.filter (fun r => r.rn = some 1)

/-- Overwrite a row's status field (used to state that no statistic
depends on it). -/
def setStatus (r : NRow) (s : Option String) : NRow :=
  { r with status := s }

/-! ### Result assembler (src/app.py lines 145-149, 196-200, …) -/

/-- Look a key up in one per-metric-family statistics table. -/
def lookupStats {K : Type} [DecidableEq K]
    (t : List (K × Option ℚ × Option ℚ)) (k : K) : Option ℚ × Option ℚ :=
  match t.find? (fun row => row.1 = k) with
  | none => (none, none)
  | some row => row.2

/-- One row of an assembled wide table: the key (month, or
month × dimension value) and the six statistic columns of the three
metric families. -/
structure WideRow (K : Type) where
  key : K
  msgMed : Option ℚ
  msgP90 : Option ℚ
  respMed : Option ℚ
  respP90 : Option ℚ
  handMed : Option ℚ
  handP90 : Option ℚ
deriving DecidableEq, Repr

/-- Lines 145-149: `reply.merge(resp, on=key, how="outer").merge(handle,
on=key, how="outer").sort_values(key)`.  The groupby tables are keyed
uniquely, so the chain of outer merges followed by the ascending sort is
the map over the sorted union of the three key sets, reading each family
by key and filling NaN where a family lacks the key. -/
def assembleWide {K : Type} [DecidableEq K] (kle : K → K → Bool)
    (tr ts th : List (K × Option ℚ × Option ℚ)) : List (WideRow K) :=
  (sortLe kle (dedupKeys (tr.map (fun x => x.1) ++ ts.map (fun x => x.1) ++ th.map (fun x => x.1)))).map
    (fun k =>
      let a := lookupStats tr k
      let b := lookupStats ts k
      let c := lookupStats th k
      ⟨k, a.1, a.2, b.1, b.2, c.1, c.2⟩)

/-! ### Record ingestor (src/app.py lines 34-62) -/

/-- One uploaded table as decoded by the reader: a header and rows of
cells aligned to it. -/
structure RawTable where
  header : List String
  rows : List (List (Option String))
deriving DecidableEq, Repr

/-- A row every cell of which is NaN (`dropna(how="all")`, line 44). -/
def allEmptyRow (row : List (Option String)) : Bool := row.all (fun c => c.isNone)

/-- Line 44 applied to one table: `df.iloc[:-1, :].dropna(how="all")` —
drop the trailing footer row, then drop the all-empty rows. -/
def prepRows (t : RawTable) : List (List (Option String)) :=
  (t.rows.dropLast).filter (fun r => !allEmptyRow r)

/-- The column set of `pd.concat` (line 50): the union of the headers in
order of first appearance. -/
def unionCols (ts : List RawTable) : List String :=
  ts.foldl (fun acc t => acc ++ t.header.filter (fun c => c ∉ acc)) []

/-- Re-express one row of a table over the merged column list, filling
NaN for the columns the table lacks (what `pd.concat` does). -/
def realign (hdr merged : List String) (row : List (Option String)) :
    List (Option String) :=
  merged.map (fun c =>
    match hdr.indexOf? c with
    | none => none
    | some i => row.getD i none)

/-- Lines 36-47: the reading loop — a file that fails to parse is
skipped with a warning (counted), the tables that parse are collected in
file order. -/
def readLoop : List (Option RawTable) → List RawTable × Nat
  | [] => ([], 0)
  | f :: fs =>
    let rest := readLoop fs
    match f with
    | none => (rest.1, rest.2 + 1)
    | some t => (t :: rest.1, rest.2)

/-- Character-list test: does the second list start with the first? -/
def isPrefChars : List Char → List Char → Bool
  | [], _ => true
  | _ :: _, [] => false
  | a :: as, b :: bs => a == b && isPrefChars as bs

/-- Character-list substring test. -/
def subOfChars (pat : List Char) : List Char → Bool
  | [] => isPrefChars pat []
  | b :: bs => isPrefChars pat (b :: bs) || subOfChars pat bs

/-- Python's `pat in s`. -/
def containsSub (pat s : String) : Bool := subOfChars pat.data s.data

/-- Python's `str.lower()` (ASCII case folding, which is all the column
names need). -/
def lowerStr (s : String) : String := ⟨s.data.map Char.toLower⟩

/-- Line 59: the creation-timestamp column is the first merged column
whose lower-cased name contains the keyword "ticket_created". -/
def findCreatedCol (cols : List String) : Option String :=
  cols.find? (fun c => containsSub "ticket_created" (lowerStr c))

/-- The ways ingestion aborts the run (`st.stop()` on lines 55 and 62). -/
inductive IngestError where
  | noTables
  | noCreatedCol
deriving DecidableEq, Repr

/-- The merged record set the ingestor hands to the rest of the run. -/
structure Ingested where
  cols : List String
  rows : List (List (Option String))
  createdCol : String
  warnings : Nat
deriving DecidableEq, Repr

/-- Lines 34-62: read every file (skipping failures with a warning),
abort if nothing parsed, concatenate the prepped tables preserving row
order, trim the merged column names, and locate the creation-timestamp
column, aborting if none matches. -/
def ingest (files : List (Option RawTable)) : Except IngestError Ingested :=
  if (readLoop files).1 = [] then .error .noTables
  else
    match findCreatedCol ((unionCols (readLoop files).1).map stripEnds) with
    | none => .error .noCreatedCol
    | some c =>
      .ok ⟨(unionCols (readLoop files).1).map stripEnds,
        (readLoop files).1.flatMap
          (fun t => (prepRows t).map (realign t.header (unionCols (readLoop files).1))),
        c, (readLoop files).2⟩

/-! ### Overall application flow (filters, subsets, tables) -/

/-- `df[df["ticket_channel"].isin(sel)]` (line 89): keep rows whose
channel value is in the selection (NaN is never in the selection). -/
def filterChannel (sel : List String) (rows : List NRow) : List NRow :=
  rows.filter (fun r => match r.channel with | some c => sel.contains c | none => false)

/-- `df[df["business_line"].isin(sel)]` (line 103). -/
def filterLine (sel : List String) (rows : List NRow) : List NRow :=
  rows.filter (fun r => match r.line with | some c => sel.contains c | none => false)

/-- Lexical order on (month, dimension value) pairs, as
`sort_values(["month", dim])` orders rows. -/
def pairLe (a b : String × String) : Bool :=
  decide (a.1 < b.1) || (a.1 == b.1 && decide (a.2 ≤ b.2))

/-- Lines 183-194: the brand-line aggregation —
`groupby(["month", "business_line"])` drops rows whose line is NaN and
groups the rest by the (month, line) pair. -/
def lineGroupStats (rows : List NRow) (metric : NRow → Option ℚ) :
    List ((String × String) × Option ℚ × Option ℚ) :=
  groupStatsBy pairLe (fun r => (rowMonth r, r.line.getD ""))
    (rows.filter (fun r => r.line.isSome)) metric

/-- The named result tables the run produces (the axes the claims
exercise: overall, and brand line when its column exists). -/
structure AppOut where
  overall : List (WideRow String)
  lineStats : Option (List (WideRow (String × String)))
deriving DecidableEq, Repr

/-- The script flow from the filter widgets to the assembled tables
(src/app.py lines 81-111, 132-149, 183-200).  An empty selection or a
failing `rn` query raises, and — `st.stop()` stops the whole script —
nothing after it is produced. -/
def runApp (cols : List String) (rows : List NRow)
    (chSel lineSel : List String) : Except StopReason AppOut := do
  let rows1 ←
    if "ticket_channel" ∈ cols then
      if chSel = [] then Except.error StopReason.noChannels
      else Except.ok (filterChannel chSel rows)
    else Except.ok rows
  let rows2 ←
    if "business_line" ∈ cols then
      if lineSel = [] then Except.error StopReason.noLines
      else Except.ok (filterLine lineSel rows1)
    else Except.ok rows1
  let dfReply ← queryRnEq1 cols rows2
  let dfClose ← queryRnEq1 cols rows2
  let ov := assembleWide strLe (groupStats dfReply NRow.msgCount)
      (groupStats dfClose NRow.respDur) (groupStats dfClose NRow.handleDur)
  let ls :=
    if "business_line" ∈ cols then
      some (assembleWide pairLe (lineGroupStats dfReply NRow.msgCount)
        (lineGroupStats dfClose NRow.respDur) (lineGroupStats dfClose NRow.handleDur))
    else none
  Except.ok ⟨ov, ls⟩

/-! ### Concrete records used by witnesses and counterexamples -/

/-- A well-formed closed ticket row of January 2024 with no metric
values. -/
def baseRow : NRow :=
  ⟨"T1", some 1, some "closed", some "email", some "L1", some (2024, 1),
    none, none, none⟩

/-! ### Helper lemmas on the sorting and lookup kernels -/

theorem except_bind_error {e a b : Type} (x : e) (f : a → Except e b) :
    (Except.error x : Except e a) >>= f = Except.error x := rfl

theorem except_bind_ok {e a b : Type} (v : a) (f : a → Except e b) :
    (Except.ok v : Except e a) >>= f = f v := rfl

theorem mem_insertLe {α : Type} (le : α → α → Bool) (x a : α) (l : List α) :
    a ∈ insertLe le x l ↔ a = x ∨ a ∈ l := by
  induction l with
  | nil => simp [insertLe]
  | cons y ys ih =>
    simp only [insertLe]
    by_cases h : le x y = true
    · simp only [if_pos h, List.mem_cons]
    · simp only [if_neg h, List.mem_cons, ih]
      tauto

theorem mem_sortLe {α : Type} (le : α → α → Bool) (a : α) (l : List α) :
    a ∈ sortLe le l ↔ a ∈ l := by
  induction l with
  | nil => simp [sortLe]
  | cons x xs ih => simp [sortLe, mem_insertLe, ih]

theorem mem_dedupKeys {K : Type} [DecidableEq K] (a : K) (l : List K) :
    a ∈ dedupKeys l ↔ a ∈ l := by
  induction l with
  | nil => simp [dedupKeys]
  | cons x xs ih =>
    simp only [dedupKeys]
    by_cases h : x ∈ xs
    · simp only [if_pos h, ih, List.mem_cons]
      constructor
      · exact fun hm => Or.inr hm
      · rintro (rfl | hm)
        · exact h
        · exact hm
    · simp [if_neg h, ih]

theorem pairwise_insertLe {α : Type} {le : α → α → Bool}
    (htr : ∀ a b c, le a b = true → le b c = true → le a c = true)
    (hto : ∀ a b, le a b = true ∨ le b a = true)
    (x : α) (l : List α) (h : l.Pairwise (fun a b => le a b = true)) :
    (insertLe le x l).Pairwise (fun a b => le a b = true) := by
  induction l with
  | nil => simp [insertLe]
  | cons y ys ih =>
    rcases List.pairwise_cons.mp h with ⟨hy, hys⟩
    by_cases hxy : le x y = true
    · simp only [insertLe, if_pos hxy]
      refine List.pairwise_cons.mpr ⟨?_, h⟩
      intro b hb
      rcases List.mem_cons.mp hb with rfl | hb
      · exact hxy
      · exact htr _ _ _ hxy (hy b hb)
    · simp only [insertLe, if_neg hxy]
      refine List.pairwise_cons.mpr ⟨?_, ih hys⟩
      intro b hb
      rcases (mem_insertLe le x b ys).mp hb with rfl | hb
      · exact (hto y b).resolve_right (by simpa using hxy)
      · exact hy b hb

theorem pairwise_sortLe {α : Type} {le : α → α → Bool}
    (htr : ∀ a b c, le a b = true → le b c = true → le a c = true)
    (hto : ∀ a b, le a b = true ∨ le b a = true)
    (l : List α) :
    (sortLe le l).Pairwise (fun a b => le a b = true) := by
  induction l with
  | nil => simp [sortLe]
  | cons x xs ih => exact pairwise_insertLe htr hto x _ ih

theorem lookup_none_of_no_key {β : Type} (g : String) :
    ∀ l : List (String × β), (∀ x ∈ l, x.1 ≠ g) → List.lookup g l = none
  | [], _ => rfl
  | (a, b) :: xs, h => by
    have hx : a ≠ g := h (a, b) (List.mem_cons_self _ _)
    have hbeq : (g == a) = false := by
      simp only [beq_eq_false_iff_ne, ne_eq]
      exact fun e => hx e.symm
    simp only [List.lookup, hbeq]
    exact lookup_none_of_no_key g xs (fun y hy => h y (List.mem_cons_of_mem _ hy))

theorem lookup_append_left_none {β : Type} (g : String) :
    ∀ l1 l2 : List (String × β),
      List.lookup g l1 = none → List.lookup g (l1 ++ l2) = List.lookup g l2
  | [], _, _ => rfl
  | (a, b) :: xs, l2, h => by
    by_cases he : (g == a) = true
    · simp [List.lookup, he] at h
    · have hbeq : (g == a) = false := by
        simpa using he
      simp only [List.cons_append, List.lookup, hbeq] at h ⊢
      exact lookup_append_left_none g xs l2 h

/-! ### Claim theorems -/

/-- C5 (confirmed): `clean_numeric_column` strips outer whitespace,
removes commas, maps dash runs, the null-word sentinels (any casing,
through the coercing parse) and blank strings to missing, parses the
rest as a number, and maps every remaining unparsable string to missing
— it can never raise.  In particular "-", "—", "null", "" are missing
and "1,234" is 1234. -/
theorem claim_C5_numeric_cleaning :
    cleanNumeric "-" = none ∧
    cleanNumeric "—" = none ∧
    cleanNumeric "null" = none ∧
    cleanNumeric "" = none ∧
    cleanNumeric "1,234" = some 1234 ∧
    cleanNumeric "NULL" = none ∧
    cleanNumeric "nUlL" = none ∧
    cleanNumeric "None" = none ∧
    cleanNumeric "NAN" = none ∧
    cleanNumeric "  7  " = some 7 ∧
    ∀ s : String, parseNum (stripCommas (stripEnds s)) = none →
      cleanNumeric s = none := by
  refine ⟨by decide, by decide, by decide, by decide, by decide, by decide,
    by decide, by decide, by decide, by decide, ?_⟩
  intro s h
  unfold cleanNumeric
  by_cases hs : isSentinel (stripEnds s) = true
  · simp [hs]
  · simp [hs, h]

/-- Witness for C5: the unparsable-string clause at the concrete cell
"abc". -/
theorem claim_C5_numeric_cleaning_witness : cleanNumeric "abc" = none :=
  claim_C5_numeric_cleaning.2.2.2.2.2.2.2.2.2.2 "abc" (by decide)

/-- A second row of the same ticket "T1" (another message of the
ticket), also ranked `rn == 1`. -/
def dupRow : NRow := { baseRow with channel := some "chat" }

/-- A ticket row whose status is "open", ranked `rn == 1`, with a
handling duration of 5. -/
def openRow : NRow := { baseRow with status := some "open", handleDur := some 5 }

/-- C1 (counterexample): the analysis view is `df.query("rn == 1")`
(src/app.py lines 110-111), not a first-occurrence-per-(ticket_id, axis
key) dedup: with two rows of ticket "T1" both carrying `rn == 1` (same
month, overall axis), the view used for aggregation contains the ticket
twice. -/
theorem claim_C1_dedup_counterexample :
    queryRnEq1 ["ticket_id", "rn", "ticket_created"] [baseRow, dupRow]
        = .ok [baseRow, dupRow] ∧
    ([baseRow, dupRow].filter (fun r => r.rn = some 1)).countP
        (fun r => r.ticket_id == "T1") = 2 := by
  constructor
  · rfl
  · decide

/-- C1 (amended): every axis's record view is the single `rn == 1`
filter of the merged rows; a ticket_id appears in the view once per row
marked `rn == 1`, so it is unique per axis only when `rn` marks exactly
one row of the ticket. -/
theorem claim_C1_dedup_amended (cols : List String) (rows : List NRow)
    (h : "rn" ∈ cols) :
    queryRnEq1 cols rows = .ok (dedupView rows) ∧
    ∀ t : String, (dedupView rows).countP (fun r => r.ticket_id == t)
      = rows.countP (fun r => r.ticket_id == t && decide (r.rn = some 1)) := by
  constructor
  · simp [queryRnEq1, dedupView, h]
  · intro t
    exact List.countP_filter _ _ _

/-- Witness for the amended C1 at the duplicated ticket "T1". -/
theorem claim_C1_dedup_amended_witness :
    queryRnEq1 ["rn"] [baseRow, dupRow] = .ok (dedupView [baseRow, dupRow]) ∧
    (dedupView [baseRow, dupRow]).countP (fun r => r.ticket_id == "T1")
      = [baseRow, dupRow].countP
          (fun r => r.ticket_id == "T1" && decide (r.rn = some 1)) :=
  ⟨(claim_C1_dedup_amended ["rn"] [baseRow, dupRow] (by decide)).1,
   (claim_C1_dedup_amended ["rn"] [baseRow, dupRow] (by decide)).2 "T1"⟩

/-- C2 (counterexample): no status restriction exists in the code — the
view feeding every statistic is `df.query("rn == 1")` (line 111), which
never consults a status field: a ticket with status "open" and `rn == 1`
is kept and its handling duration enters the aggregates. -/
theorem claim_C2_status_counterexample :
    openRow.status = some "open" ∧
    queryRnEq1 ["rn", "status"] [openRow] = .ok [openRow] ∧
    groupStats [openRow] NRow.handleDur = [("2024-01", some 5, some 5)] := by
  refine ⟨rfl, rfl, ?_⟩
  have hq : quantileLinear (9 / 10) [5] = some 5 := by
    norm_num [quantileLinear, sortLe, insertLe, qLe, Rat.floor, nthD]
  have hm : medianList [5] = some 5 := by decide
  simp only [groupStats, groupStatsBy]
  rw [show sortLe strLe (dedupKeys ([openRow].map rowMonth)) = ["2024-01"]
      from by decide]
  simp only [List.map_cons, List.map_nil]
  rw [show ([openRow].filter (fun r => rowMonth r = "2024-01")).filterMap
        NRow.handleDur = [5] from by decide]
  rw [hq, hm]

/-- Statistics never read the status field: rewriting every row's status
leaves every grouped statistic unchanged, provided the grouping key and
the metric do not read it. -/
theorem groupStatsBy_status_invariant {K : Type} [DecidableEq K]
    (kle : K → K → Bool) (key : NRow → K) (metric : NRow → Option ℚ)
    (s : Option String)
    (hkey : ∀ r, key (setStatus r s) = key r)
    (hmet : ∀ r, metric (setStatus r s) = metric r) (rows : List NRow) :
    groupStatsBy kle key (rows.map (fun r => setStatus r s)) metric
      = groupStatsBy kle key rows metric := by
  unfold groupStatsBy
  have h1 : (rows.map (fun r => setStatus r s)).map key = rows.map key := by
    rw [List.map_map]
    exact List.map_congr_left (fun r _ => hkey r)
  rw [h1]
  refine List.map_congr_left (fun k _ => ?_)
  have h2 : (rows.map (fun r => setStatus r s)).filter
        (fun r => decide (key r = k))
      = (rows.filter (fun r => decide (key r = k))).map (fun r => setStatus r s) := by
    rw [List.filter_map]
    refine congrArg _ (List.filter_congr (fun r _ => ?_))
    simp [Function.comp, hkey r]
  simp only [h2, List.filterMap_map]
  have h3 : (rows.filter (fun r => decide (key r = k))).filterMap
        (metric ∘ fun r => setStatus r s)
      = (rows.filter (fun r => decide (key r = k))).filterMap metric :=
    List.filterMap_congr (fun r _ => hmet r)
  rw [h3]

/-- C2 (amended): whether or not a status field is present, the view
used application-wide for every statistic is exactly the `rn == 1`
subset, with no restriction to closed tickets: the deduplicated view and
all three metric families' statistics are invariant under arbitrary
rewrites of every row's status. -/
theorem claim_C2_no_status_restriction (rows : List NRow) (s : Option String) :
    dedupView (rows.map (fun r => setStatus r s))
        = (dedupView rows).map (fun r => setStatus r s) ∧
    groupStats (dedupView (rows.map (fun r => setStatus r s))) NRow.msgCount
        = groupStats (dedupView rows) NRow.msgCount ∧
    groupStats (dedupView (rows.map (fun r => setStatus r s))) NRow.respDur
        = groupStats (dedupView rows) NRow.respDur ∧
    groupStats (dedupView (rows.map (fun r => setStatus r s))) NRow.handleDur
        = groupStats (dedupView rows) NRow.handleDur := by
  have hfilt : dedupView (rows.map (fun r => setStatus r s))
      = (dedupView rows).map (fun r => setStatus r s) := by
    unfold dedupView
    rw [List.filter_map]
    rfl
  refine ⟨hfilt, ?_, ?_, ?_⟩
  · rw [hfilt]
    exact groupStatsBy_status_invariant strLe rowMonth NRow.msgCount s
      (fun r => rfl) (fun r => rfl) (dedupView rows)
  · rw [hfilt]
    exact groupStatsBy_status_invariant strLe rowMonth NRow.respDur s
      (fun r => rfl) (fun r => rfl) (dedupView rows)
  · rw [hfilt]
    exact groupStatsBy_status_invariant strLe rowMonth NRow.handleDur s
      (fun r => rfl) (fun r => rfl) (dedupView rows)

/-- A ticket row whose creation timestamp failed to parse (NaT), with a
reply count of 3 and rank 1. -/
def natRow : NRow := { baseRow with created := none, msgCount := some 3 }

/-- C6 (counterexample): `to_period("M").astype(str)` renders the NaT of
an unparsable timestamp as the literal string "NaT" (line 65), which is
an ordinary groupable key: the record is bucketed under a "NaT" month
group that appears in the statistics tables, so it is NOT excluded from
time-bucketed aggregates (though it is indeed not dropped). -/
theorem claim_C6_nat_bucket_counterexample :
    natRow.created = none ∧
    rowMonth natRow = "NaT" ∧
    groupStats [natRow] NRow.msgCount = [("NaT", some 3, some 3)] := by
  refine ⟨rfl, rfl, ?_⟩
  have hq : quantileLinear (9 / 10) [3] = some 3 := by
    norm_num [quantileLinear, sortLe, insertLe, qLe, Rat.floor, nthD]
  have hm : medianList [3] = some 3 := by decide
  simp only [groupStats, groupStatsBy]
  rw [show sortLe strLe (dedupKeys ([natRow].map rowMonth)) = ["NaT"]
      from by decide]
  simp only [List.map_cons, List.map_nil]
  rw [show ([natRow].filter (fun r => rowMonth r = "NaT")).filterMap
        NRow.msgCount = [3] from by decide]
  rw [hq, hm]

/-- C6 (amended): a record whose creation timestamp fails to parse gets
the literal month-bucket string "NaT"; it is not dropped from the record
set, and it is included in time-bucketed aggregation: every statistics
table over a record set containing it has a "NaT" month group. -/
theorem claim_C6_nat_bucket_amended (rows : List NRow)
    (metric : NRow → Option ℚ) (r : NRow) (hr : r ∈ rows)
    (hc : r.created = none) :
    rowMonth r = "NaT" ∧
    "NaT" ∈ (groupStats rows metric).map (fun g => g.1) := by
  have hmonth : rowMonth r = "NaT" := by rw [rowMonth, hc]; rfl
  refine ⟨hmonth, ?_⟩
  have hk : "NaT" ∈ sortLe strLe (dedupKeys (rows.map rowMonth)) := by
    rw [mem_sortLe, mem_dedupKeys]
    exact hmonth ▸ List.mem_map_of_mem rowMonth hr
  exact List.mem_map.mpr ⟨_, List.mem_map_of_mem _ hk, rfl⟩

/-- Witness for the amended C6: a one-row record set whose only row has
an unparsable timestamp. -/
theorem claim_C6_nat_bucket_amended_witness :
    rowMonth natRow = "NaT" ∧
    "NaT" ∈ (groupStats [natRow] NRow.msgCount).map (fun g => g.1) :=
  claim_C6_nat_bucket_amended [natRow] NRow.msgCount natRow
    (List.mem_singleton.mpr rfl) rfl

/-- C7 (counterexample): an empty channel selection warns and calls
`st.stop()` (lines 92-93), which aborts the whole script run: the run
produces no table at all — later sections do not run, not even those
that do not depend on the channel selection. -/
theorem claim_C7_empty_selection_counterexample :
    runApp ["ticket_channel", "business_line", "rn"] [baseRow] [] ["L1"]
      = .error .noChannels := by
  rfl

/-- C7 (amended): an empty selection for a present categorical dimension
signals a distinguishable "no data selected" stop rather than silently
producing empty results — but the stop halts the entire remainder of the
run: no later section (for any axis, dependent or not) runs, and no
table is produced. -/
theorem claim_C7_empty_selection_amended :
    (∀ (cols : List String) (rows : List NRow) (chSel lineSel : List String),
      "ticket_channel" ∈ cols → chSel = [] →
        runApp cols rows chSel lineSel = .error .noChannels) ∧
    (∀ (cols : List String) (rows : List NRow) (chSel lineSel : List String),
      "ticket_channel" ∉ cols → "business_line" ∈ cols → lineSel = [] →
        runApp cols rows chSel lineSel = .error .noLines) := by
  constructor
  · intro cols rows chSel lineSel hc he
    simp [runApp, hc, he, except_bind_error, except_bind_ok]
  · intro cols rows chSel lineSel hc hb hl
    simp [runApp, hc, hb, hl, except_bind_error, except_bind_ok]

/-- Witness for the amended C7 at a concrete empty channel selection and
a concrete empty brand-line selection. -/
theorem claim_C7_empty_selection_amended_witness :
    runApp ["ticket_channel"] [baseRow] [] ["L1"] = .error .noChannels ∧
    runApp ["business_line"] [baseRow] ["email"] [] = .error .noLines :=
  ⟨claim_C7_empty_selection_amended.1 ["ticket_channel"] [baseRow] [] ["L1"]
      (by decide) rfl,
   claim_C7_empty_selection_amended.2 ["business_line"] [baseRow] ["email"] []
      (by decide) (by decide) rfl⟩

/-- C10 (confirmed): lines 110-111 unconditionally evaluate
`df.query("rn == 1")`; when the merged columns do not include a field
named `rn`, pandas raises `UndefinedVariableError`, which is uncaught:
the whole run aborts before any statistic is computed, even though every
other required column is present and the selections are non-empty. -/
theorem claim_C10_missing_rn_aborts (cols : List String) (rows : List NRow)
    (chSel lineSel : List String)
    (hrn : "rn" ∉ cols)
    (_hcreated : "ticket_created" ∈ cols)
    (_hmsg : "message_count" ∈ cols)
    (hch : "ticket_channel" ∈ cols → chSel ≠ [])
    (hbl : "business_line" ∈ cols → lineSel ≠ []) :
    runApp cols rows chSel lineSel = .error .undefinedVariable := by
  unfold runApp
  by_cases h1 : "ticket_channel" ∈ cols
  · by_cases h2 : "business_line" ∈ cols
    · simp [h1, h2, hch h1, hbl h2, queryRnEq1, hrn, except_bind_error,
        except_bind_ok]
    · simp [h1, h2, hch h1, queryRnEq1, hrn, except_bind_error, except_bind_ok]
  · by_cases h2 : "business_line" ∈ cols
    · simp [h1, h2, hbl h2, queryRnEq1, hrn, except_bind_error, except_bind_ok]
    · simp [h1, h2, queryRnEq1, hrn, except_bind_error, except_bind_ok]

/-- Witness for C10: a merged input with the timestamp, metric and
dimension columns but no `rn` column aborts with the query error. -/
theorem claim_C10_missing_rn_aborts_witness :
    runApp ["ticket_created", "message_count", "ticket_channel",
      "business_line"] [baseRow] ["email"] ["L1"]
      = .error .undefinedVariable :=
  claim_C10_missing_rn_aborts _ _ _ _ (by decide) (by decide) (by decide)
    (fun _ => by decide) (fun _ => by decide)

/-- C3 (counterexample): `pct_change` divides by the previous value with
IEEE semantics, and line 120/125 formats any non-null float: a zero
previous value with a nonzero current value yields +inf, `pd.notnull` is
true on inf, and the rendered change is "inf%" — not the missing
placeholder "-" the claim requires for a zero previous value. -/
theorem claim_C3_pct_change_counterexample :
    momColumn [some 0, some 150] = ["-", "inf%"] := by decide

/-- Helper: the element of `pctChangeList` at a successor position
compares the two neighbouring values. -/
theorem pctChangeList_getD (xs : List (Option ℚ)) (i : Nat)
    (h : i + 1 < xs.length) :
    (pctChangeList xs).getD (i + 1) .nan
      = pctStep (xs.getD i none) (xs.getD (i + 1) none) := by
  unfold pctChangeList
  rw [List.getD_eq_getElem?_getD, List.getElem?_map, List.getElem?_range h]
  simp

/-- C3 (amended): the change column equals (current − previous)/previous
against the immediately preceding bucket of the same group; the first
bucket of each group renders the "-" placeholder; a missing previous or
current value renders "-"; but a zero previous value with a nonzero
current value yields an infinite change rendered "inf%" (never an error,
and never the missing placeholder); for values [100, 150] the second
bucket renders "50.0%". -/
theorem claim_C3_pct_change_amended :
    momColumn [some 100, some 150] = ["-", "50.0%"] ∧
    (∀ (x : Option ℚ) (xs : List (Option ℚ)),
      (momColumn (x :: xs)).head? = some "-") ∧
    (∀ p c : ℚ, p ≠ 0 → pctStep (some p) (some c) = .fin ((c - p) / p)) ∧
    (∀ c : Option ℚ, pctStep none c = .nan) ∧
    (∀ p : Option ℚ, pctStep p none = .nan) ∧
    (∀ c : ℚ, 0 < c → pctStep (some 0) (some c) = .posInf) ∧
    (∀ (xs : List (Option ℚ)) (i : Nat), i + 1 < xs.length →
      (momColumn xs).getD (i + 1) ""
        = fmtPct (pctStep (xs.getD i none) (xs.getD (i + 1) none))) ∧
    (∀ (pre : List (String × Option ℚ)) (g : String) (c : Option ℚ),
      (∀ x ∈ pre, x.1 ≠ g) →
      (groupedPct (pre ++ [(g, c)])).getLast? = some PctVal.nan) ∧
    (∀ (pre mid : List (String × Option ℚ)) (g : String) (p c : Option ℚ),
      (∀ x ∈ mid, x.1 ≠ g) →
      (groupedPct ((pre ++ (g, p) :: mid) ++ [(g, c)])).getLast?
        = some (pctStep p c)) := by
  refine ⟨?_, ?_, ?_, fun c => rfl, ?_, ?_, ?_, ?_, ?_⟩
  · have h1 : pctChangeList [some 100, some 150]
        = [.nan, .fin ((150 - 100) / 100)] := by
      norm_num [pctChangeList, pctStep, show List.range 2 = [0, 1] from rfl]
    rw [momColumn, h1, show ((150 : ℚ) - 100) / 100 = 1 / 2 by norm_num]
    show ["-", fmtPct (.fin (1 / 2))] = ["-", "50.0%"]
    rw [fmtPct, fmtFixed1, show ((1 : ℚ) / 2 * 100 * 10) = 500 by norm_num,
      show rhe 500 = 500 by norm_num [rhe, Rat.floor]]
    decide
  · intro x xs
    simp [momColumn, pctChangeList, List.range_succ_eq_map, fmtPct]
  · intro p c h
    simp [pctStep, h]
  · intro p
    cases p <;> rfl
  · intro c h
    simp [pctStep, h, not_lt.mpr (le_of_lt h)]
  · intro xs i h
    unfold momColumn
    rw [List.getD_eq_getElem?_getD, List.getElem?_map]
    unfold pctChangeList
    rw [List.getElem?_map, List.getElem?_range h]
    simp
  · intro pre g c h
    unfold groupedPct
    have hlen : (pre ++ [(g, c)]).length = pre.length + 1 := by simp
    rw [hlen, List.range_succ, List.map_append]
    simp only [List.map_cons, List.map_nil]
    rw [List.getLast?_concat]
    have htake : (pre ++ [(g, c)]).take pre.length = pre :=
      List.take_left pre [(g, c)]
    have hget : (pre ++ [(g, c)]).getD pre.length ("", none) = (g, c) := by
      rw [List.getD_eq_getElem?_getD,
        List.getElem?_append_right (Nat.le_refl pre.length)]
      simp
    simp only [htake, hget]
    rw [lookup_none_of_no_key g pre.reverse
      (fun x hx => h x (List.mem_reverse.mp hx))]
  · intro pre mid g p c h
    unfold groupedPct
    have hlen : ((pre ++ (g, p) :: mid) ++ [(g, c)]).length
        = (pre ++ (g, p) :: mid).length + 1 := by
      simp
      omega
    rw [hlen, List.range_succ, List.map_append]
    simp only [List.map_cons, List.map_nil]
    rw [List.getLast?_concat]
    have htake : ((pre ++ (g, p) :: mid) ++ [(g, c)]).take
        (pre ++ (g, p) :: mid).length = pre ++ (g, p) :: mid :=
      List.take_left _ [(g, c)]
    have hget : ((pre ++ (g, p) :: mid) ++ [(g, c)]).getD
        (pre ++ (g, p) :: mid).length ("", none) = (g, c) := by
      rw [List.getD_eq_getElem?_getD,
        List.getElem?_append_right (Nat.le_refl _)]
      simp
    simp only [htake, hget]
    have hrev : (pre ++ (g, p) :: mid).reverse
        = mid.reverse ++ ((g, p) :: pre.reverse) := by
      simp
    rw [hrev, lookup_append_left_none g mid.reverse ((g, p) :: pre.reverse)
      (lookup_none_of_no_key g mid.reverse
        (fun x hx => h x (List.mem_reverse.mp hx)))]
    simp [List.lookup]

/-- Witness for the amended C3: the general clauses at values [100, 150]
in one group "A" preceded by an unrelated group "B". -/
theorem claim_C3_pct_change_amended_witness :
    pctStep (some 100) (some 150) = .fin ((150 - 100) / 100) ∧
    (momColumn [some 100, some 150]).getD 1 ""
      = fmtPct (pctStep ([some 100, some 150].getD 0 none)
          ([some 100, some 150].getD 1 none)) ∧
    (groupedPct [("B", some 7), ("A", some 100)]).getLast? = some PctVal.nan ∧
    (groupedPct (([("B", some 7)] ++ ("A", some 100) :: [("B", some 9)])
        ++ [("A", some 150)])).getLast?
      = some (pctStep (some 100) (some 150)) :=
  ⟨claim_C3_pct_change_amended.2.2.1 100 150 (by norm_num),
   claim_C3_pct_change_amended.2.2.2.2.2.2.1 [some 100, some 150] 0 (by decide),
   claim_C3_pct_change_amended.2.2.2.2.2.2.2.1 [("B", some 7)] "A" (some 100)
     (by decide),
   claim_C3_pct_change_amended.2.2.2.2.2.2.2.2 [("B", some 7)] [("B", some 9)]
     "A" (some 100) (some 150) (by decide)⟩

/-- C4 (confirmed): the P90 statistic of every group of every axis is
the linear-interpolation 0.9-quantile of that group's non-missing
samples; [1..10] gives 9.1, and a group with no non-missing samples
reports missing. -/
theorem claim_C4_p90_linear_interpolation :
    quantileLinear (9 / 10) [1, 2, 3, 4, 5, 6, 7, 8, 9, 10] = some (91 / 10) ∧
    quantileLinear (9 / 10) [] = none ∧
    (∀ (rows : List NRow) (metric : NRow → Option ℚ)
        (g : String × Option ℚ × Option ℚ),
      g ∈ groupStats rows metric →
        g.2.2 = quantileLinear (9 / 10)
            ((rows.filter (fun r => rowMonth r = g.1)).filterMap metric) ∧
        ((rows.filter (fun r => rowMonth r = g.1)).filterMap metric = [] →
          g.2.2 = none)) ∧
    (∀ (rows : List NRow) (metric : NRow → Option ℚ)
        (g : (String × String) × Option ℚ × Option ℚ),
      g ∈ lineGroupStats rows metric →
        g.2.2 = quantileLinear (9 / 10)
            (((rows.filter (fun r => r.line.isSome)).filter
                (fun r => (rowMonth r, r.line.getD "") = g.1)).filterMap metric)) := by
  refine ⟨?_, rfl, ?_, ?_⟩
  · norm_num [quantileLinear, sortLe, insertLe, qLe, Rat.floor, nthD]
    simp
    norm_num
  · intro rows metric g hg
    rcases List.mem_map.mp hg with ⟨k, _, rfl⟩
    exact ⟨rfl, fun he => by simp only [he]; rfl⟩
  · intro rows metric g hg
    rcases List.mem_map.mp hg with ⟨k, _, rfl⟩
    rfl

/-- Witness for C4: the group clause at a concrete one-row record set
whose response-duration metric is missing, so the group's P90 is
missing. -/
theorem claim_C4_p90_linear_interpolation_witness :
    (("2024-01", (none : Option ℚ), (none : Option ℚ)) :
        String × Option ℚ × Option ℚ).2.2
      = quantileLinear (9 / 10)
          (([baseRow].filter (fun r => rowMonth r = "2024-01")).filterMap
            NRow.respDur) :=
  (claim_C4_p90_linear_interpolation.2.2.1 [baseRow] NRow.respDur
    ("2024-01", none, none) (by decide)).1

/-- `strLe` is transitive. -/
theorem strLe_trans (a b c : String) (hab : strLe a b = true)
    (hbc : strLe b c = true) : strLe a c = true := by
  simp only [strLe, decide_eq_true_eq] at *
  exact le_trans hab hbc

/-- `strLe` is total. -/
theorem strLe_total (a b : String) : strLe a b = true ∨ strLe b a = true := by
  simp only [strLe, decide_eq_true_eq]
  exact le_total a b

/-- `pairLe` decides the lexical order on pairs. -/
theorem pairLe_iff (a b : String × String) :
    pairLe a b = true ↔ a.1 < b.1 ∨ (a.1 = b.1 ∧ a.2 ≤ b.2) := by
  unfold pairLe
  simp [decide_eq_true_eq, beq_iff_eq]

/-- `pairLe` is transitive. -/
theorem pairLe_trans (a b c : String × String) (hab : pairLe a b = true)
    (hbc : pairLe b c = true) : pairLe a c = true := by
  rw [pairLe_iff] at *
  rcases hab with h1 | ⟨e1, l1⟩
  · rcases hbc with h2 | ⟨e2, l2⟩
    · exact Or.inl (lt_trans h1 h2)
    · exact Or.inl (e2 ▸ h1)
  · rcases hbc with h2 | ⟨e2, l2⟩
    · exact Or.inl (e1 ▸ h2)
    · exact Or.inr ⟨e1.trans e2, le_trans l1 l2⟩

/-- `pairLe` is total. -/
theorem pairLe_total (a b : String × String) :
    pairLe a b = true ∨ pairLe b a = true := by
  rw [pairLe_iff, pairLe_iff]
  rcases lt_trichotomy a.1 b.1 with h | h | h
  · exact Or.inl (Or.inl h)
  · rcases le_total a.2 b.2 with h2 | h2
    · exact Or.inl (Or.inr ⟨h, h2⟩)
    · exact Or.inr (Or.inr ⟨h.symm, h2⟩)
  · exact Or.inr (Or.inl h)

/-- The key column of an assembled table is the sorted union of the
three families' key sets. -/
theorem assembleWide_keys {K : Type} [DecidableEq K] (kle : K → K → Bool)
    (tr ts th : List (K × Option ℚ × Option ℚ)) :
    (assembleWide kle tr ts th).map (fun w => w.key)
      = sortLe kle (dedupKeys (tr.map (fun x => x.1) ++ ts.map (fun x => x.1)
          ++ th.map (fun x => x.1))) := by
  unfold assembleWide
  rw [List.map_map]
  exact (List.map_congr_left (fun k _ => rfl)).trans (List.map_id _)

/-- C8 (confirmed): the three per-metric-family tables are combined on
the bucket/dimension key with an outer join — every key present in any
family appears in the assembled table, and a family lacking a key
contributes missing values for its columns, with the row kept — and the
assembled rows are sorted ascending by month (overall axis) and by
(month, dimension value) lexically (dimension axes). -/
theorem claim_C8_outer_join_assembly :
    (∀ (K : Type) [DecidableEq K] (kle : K → K → Bool)
        (tr ts th : List (K × Option ℚ × Option ℚ))
        (x : K × Option ℚ × Option ℚ),
      x ∈ tr ∨ x ∈ ts ∨ x ∈ th →
        x.1 ∈ (assembleWide kle tr ts th).map (fun w => w.key)) ∧
    (∀ (K : Type) [DecidableEq K] (kle : K → K → Bool)
        (tr ts th : List (K × Option ℚ × Option ℚ)) (w : WideRow K),
      w ∈ assembleWide kle tr ts th →
        ((∀ y ∈ tr, y.1 ≠ w.key) → w.msgMed = none ∧ w.msgP90 = none) ∧
        ((∀ y ∈ ts, y.1 ≠ w.key) → w.respMed = none ∧ w.respP90 = none) ∧
        ((∀ y ∈ th, y.1 ≠ w.key) → w.handMed = none ∧ w.handP90 = none)) ∧
    (∀ tr ts th : List (String × Option ℚ × Option ℚ),
      ((assembleWide strLe tr ts th).map (fun w => w.key)).Pairwise
        (fun a b => a ≤ b)) ∧
    (∀ tr ts th : List ((String × String) × Option ℚ × Option ℚ),
      ((assembleWide pairLe tr ts th).map (fun w => w.key)).Pairwise
        (fun a b => a.1 < b.1 ∨ (a.1 = b.1 ∧ a.2 ≤ b.2))) := by
  refine ⟨?_, ?_, ?_, ?_⟩
  · intro K inst kle tr ts th x hx
    rw [assembleWide_keys, mem_sortLe, mem_dedupKeys]
    simp only [List.mem_append, List.mem_map]
    rcases hx with h | h | h
    · exact Or.inl (Or.inl ⟨x, h, rfl⟩)
    · exact Or.inl (Or.inr ⟨x, h, rfl⟩)
    · exact Or.inr ⟨x, h, rfl⟩
  · intro K inst kle tr ts th w hw
    rcases List.mem_map.mp hw with ⟨k, hk, rfl⟩
    refine ⟨fun hy => ?_, fun hy => ?_, fun hy => ?_⟩
    · have hf : tr.find? (fun row => row.1 = k) = none :=
        List.find?_eq_none.mpr (fun y hmem => by simpa using hy y hmem)
      constructor <;> simp [lookupStats, hf]
    · have hf : ts.find? (fun row => row.1 = k) = none :=
        List.find?_eq_none.mpr (fun y hmem => by simpa using hy y hmem)
      constructor <;> simp [lookupStats, hf]
    · have hf : th.find? (fun row => row.1 = k) = none :=
        List.find?_eq_none.mpr (fun y hmem => by simpa using hy y hmem)
      constructor <;> simp [lookupStats, hf]
  · intro tr ts th
    rw [assembleWide_keys]
    exact (pairwise_sortLe strLe_trans strLe_total _).imp
      (fun hab => of_decide_eq_true hab)
  · intro tr ts th
    rw [assembleWide_keys]
    exact (pairwise_sortLe pairLe_trans pairLe_total _).imp
      (fun hab => (pairLe_iff _ _).mp hab)

/-- Witness for C8 at a reply table with bucket "2024-01" and an
empty response and handling table: the bucket appears, with the
response-family columns missing. -/
theorem claim_C8_outer_join_assembly_witness :
    ("2024-01" ∈ (assembleWide strLe [("2024-01", some 5, some 5)] [] []).map
        (fun w => w.key)) ∧
    ((⟨"2024-01", some 5, some 5, none, none, none, none⟩ : WideRow String).respMed
        = none ∧
      (⟨"2024-01", some 5, some 5, none, none, none, none⟩ : WideRow String).respP90
        = none) :=
  ⟨claim_C8_outer_join_assembly.1 String strLe
      [("2024-01", some 5, some 5)] [] [] ("2024-01", some 5, some 5)
      (Or.inl (List.mem_singleton.mpr rfl)),
   ((claim_C8_outer_join_assembly.2.1 String strLe
      [("2024-01", some 5, some 5)] [] []
      ⟨"2024-01", some 5, some 5, none, none, none, none⟩ (by decide)).2.1
      (fun y hy => by simp at hy))⟩

/-- `readLoop` distributes over file-list concatenation: row/table order
is preserved across files and warnings add up. -/
theorem readLoop_append (fs1 fs2 : List (Option RawTable)) :
    readLoop (fs1 ++ fs2)
      = ((readLoop fs1).1 ++ (readLoop fs2).1,
         (readLoop fs1).2 + (readLoop fs2).2) := by
  induction fs1 with
  | nil => simp [readLoop]
  | cons f fs ih =>
    cases f with
    | none =>
      simp only [List.cons_append, readLoop, List.append_eq, ih, Prod.mk.injEq]
      refine ⟨by trivial, by omega⟩
    | some t => simp [readLoop, List.append_eq, ih]

/-- A file list with no parsable table yields no tables. -/
theorem readLoop_parsed_nil (files : List (Option RawTable))
    (h : ∀ f ∈ files, f = none) : (readLoop files).1 = [] := by
  induction files with
  | nil => rfl
  | cons f fs ih =>
    have hf : f = none := h f (List.mem_cons_self _ _)
    subst hf
    simp only [readLoop]
    exact ih (fun g hg => h g (List.mem_cons_of_mem _ hg))

/-- C9 (confirmed): ingestion concatenates the parsed tables preserving
file order, drops each table's footer row and its all-empty rows (in
`prepRows`), trims the merged column names, skips an unparsable file
with a warning while the rest continue, aborts fatally when no table
parsed, and aborts with a schema error when no merged column name
contains the keyword "ticket_created". -/
theorem claim_C9_ingestor :
    (∀ fs1 fs2 : List (Option RawTable),
      (readLoop (fs1 ++ fs2)).1 = (readLoop fs1).1 ++ (readLoop fs2).1) ∧
    (∀ fs1 fs2 : List (Option RawTable),
      ingest (fs1 ++ none :: fs2)
        = Except.map (fun o => { o with warnings := o.warnings + 1 })
            (ingest (fs1 ++ fs2))) ∧
    (∀ files : List (Option RawTable), (∀ f ∈ files, f = none) →
      ingest files = .error .noTables) ∧
    (∀ (files : List (Option RawTable)) (out : Ingested),
      ingest files = .ok out →
        out.rows = (readLoop files).1.flatMap
            (fun t => (prepRows t).map
              (realign t.header (unionCols (readLoop files).1)))
        ∧ out.cols = (unionCols (readLoop files).1).map stripEnds
        ∧ containsSub "ticket_created" (lowerStr out.createdCol) = true
        ∧ out.warnings = (readLoop files).2) ∧
    (∀ files : List (Option RawTable), (readLoop files).1 ≠ [] →
      findCreatedCol ((unionCols (readLoop files).1).map stripEnds) = none →
      ingest files = .error .noCreatedCol) := by
  refine ⟨?_, ?_, ?_, ?_, ?_⟩
  · intro fs1 fs2
    rw [readLoop_append]
  · intro fs1 fs2
    have e1 : readLoop (fs1 ++ none :: fs2)
        = ((readLoop fs1).1 ++ (readLoop fs2).1,
           (readLoop fs1).2 + ((readLoop fs2).2 + 1)) := by
      rw [readLoop_append fs1 (none :: fs2)]
      simp only [readLoop]
    have e2 : readLoop (fs1 ++ fs2)
        = ((readLoop fs1).1 ++ (readLoop fs2).1,
           (readLoop fs1).2 + (readLoop fs2).2) := readLoop_append fs1 fs2
    unfold ingest
    rw [e1, e2]
    by_cases he : (readLoop fs1).1 ++ (readLoop fs2).1 = []
    · simp [he, Except.map]
    · simp only [he, if_false]
      cases hf : findCreatedCol
          (((unionCols ((readLoop fs1).1 ++ (readLoop fs2).1))).map stripEnds) with
      | none => simp [Except.map]
      | some c => simp [Except.map, Nat.add_assoc]
  · intro files h
    unfold ingest
    simp [readLoop_parsed_nil files h]
  · intro files out h
    unfold ingest at h
    by_cases he : (readLoop files).1 = []
    · rw [if_pos he] at h
      exact absurd h (by simp)
    · rw [if_neg he] at h
      cases hf : findCreatedCol ((unionCols (readLoop files).1).map stripEnds) with
      | none =>
        rw [hf] at h
        exact absurd h (by simp)
      | some c =>
        rw [hf] at h
        have hout := (Except.ok.injEq _ _).mp h
        subst hout
        have hpred : containsSub "ticket_created" (lowerStr c) = true :=
          @List.find?_some String
            (fun x => containsSub "ticket_created" (lowerStr x)) c
            ((unionCols (readLoop files).1).map stripEnds) hf
        exact ⟨rfl, rfl, hpred, rfl⟩
  · intro files hne hf
    unfold ingest
    rw [if_neg hne, hf]

/-- A concrete uploaded table: a footer row, an all-empty row, a header
with stray whitespace around the timestamp column name. -/
def tblA : RawTable :=
  ⟨["  Ticket_Created_at ", "rn"],
   [[some "2024-01-05", some "1"], [none, none], [some "total", none]]⟩

/-- The merged record set `ingest` produces from `tblA` alone. -/
def tblAOut : Ingested :=
  ⟨["Ticket_Created_at", "rn"], [[some "2024-01-05", some "1"]],
   "Ticket_Created_at", 0⟩

/-- Witness for C9: the fatal-abort clause at a single unparsable file,
and the success-shape clause at the concrete table `tblA`. -/
theorem claim_C9_ingestor_witness :
    ingest [none] = .error .noTables ∧
    (tblAOut.rows = (readLoop [some tblA]).1.flatMap
        (fun t => (prepRows t).map
          (realign t.header (unionCols (readLoop [some tblA]).1)))
      ∧ tblAOut.cols = (unionCols (readLoop [some tblA]).1).map stripEnds
      ∧ containsSub "ticket_created" (lowerStr tblAOut.createdCol) = true
      ∧ tblAOut.warnings = (readLoop [some tblA]).2) :=
  ⟨claim_C9_ingestor.2.2.1 [none] (fun f hf => by simpa using hf),
   claim_C9_ingestor.2.2.2.1 [some tblA] tblAOut (by rfl)⟩

end KF
